import Mathlib

/-!
Verification development for the pixcat repository.

Shallow embedding of the three source files:

* `src/pixcat/image.py`  — the aspect-ratio-preserving resize algorithm
  (`Image.resize`) and its per-instance result cache;
* `src/pixcat/grid.py`   — axis/cell resolution (`Axis.__getitem__`), the
  row-capacity parity step (`Grid.cells_per_row`) and content resolution
  (`Grid._get_content`, `Grid._get_resized_image`, `Grid._get_text`);
* `src/pixcat/terminal.py` — the kitty graphics escape-code builder
  (`PixTerminal.get_code`) and the synchronous answer loop
  (`PixTerminal.run_code`).

Conventions of the embedding:

* Python integers become `Nat`/`Int`; Python float expressions such as
  `math.ceil((min_w / img_w) * img_h)` are embedded in exact rational
  arithmetic (`ceilDiv (min_w * img_h) img_w`), which agrees with the float
  computation on all inputs considered in the theorems below.
* Raising an exception is modelled with `Option`/`Except` (`none` /
  `.error _` = the call raised).
* Object identity (reference equality of `Image` instances) is modelled by
  giving every derived image a numeric reference drawn from a counter
  (`ImageState.nextRef`); returning `self` is the distinguished result
  `ResizeResult.same`.
* The constants of `src/pixcat/data.py` (escape prefix, control-key table,
  id bounds, answer-eliciting action set) are not part of the given sources;
  the spec calls them external configuration, so the terminal codec is
  parameterised over them.
-/

namespace Pixcat

/-! ### Arithmetic helpers (Python semantics) -/

/-- Ceiling division on naturals: for `0 < b`, `ceilDiv a b = ⌈a / b⌉`.
Embeds Python `math.ceil` applied to an exact nonnegative quotient. -/
def ceilDiv (a b : Nat) : Nat := (a + b - 1) / b

/-- Python list indexing `xs[i]` (negative indices count from the end;
`none` models an `IndexError`). -/
def pyListGet {α : Type} (xs : List α) (i : Int) : Option α :=
  if 0 ≤ i then xs.get? i.toNat
  else if i.natAbs ≤ xs.length then xs.get? (xs.length - i.natAbs)
  else none

/-- Maximum of a list of naturals (0 for the empty list). Used to embed
`ansilen(max(lines, key=ansilen))`, the length of the longest line. -/
def natListMax (l : List Nat) : Nat := l.foldl Nat.max 0

/-- Python `s.split("\n")` on the character list of a string: the empty
string yields `[""]`, separators at the ends yield empty pieces. -/
def splitOnNl : List Char → List String
  | [] => [""]
  | c :: rest =>
    let r := splitOnNl rest
    if c = '\n' then "" :: r
    else
      match r with
      | [] => [String.mk [c]]
      | s :: ss => String.mk (c :: s.data) :: ss

/-- Python `s.splitlines()` restricted to `"\n"` separators: like
`s.split("\n")` but a trailing empty piece is dropped, so `"" → []`. -/
def pySplitlines (s : String) : List String :=
  let parts := splitOnNl s.data
  if parts.getLast? = some "" then parts.dropLast else parts

/-! ### `Image.resize` (src/pixcat/image.py, lines 104-171) -/

/-- Embeds `Image._negative_col_to_px`: a negative argument is a cell count
converted to pixels via the terminal's cell width. -/
def negative_col_to_px (cell_px_width : Nat) (num : Int) : Int :=
  if 0 ≤ num then num else cell_px_width * num.natAbs

/-- Embeds `Image._negative_row_to_px`. -/
def negative_row_to_px (cell_px_height : Nat) (num : Int) : Int :=
  if 0 ≤ num then num else cell_px_height * num.natAbs

/-- Core branch logic of `Image.resize` (image.py lines 126-157) after the
bound normalisation: given the current pixel size `(img_w, img_h)` and the
normalised pixel bounds, returns `none` for the "Nothing to do" branch
(the method returns `self`) and `some (w, h)` for the new target size.
Python's float expressions `math.ceil((a / b) * c)` and
`math.floor((a / b) * c)` are embedded as exact `ceilDiv (a * c) b` and
`a * c / b`. -/
def resizeDims (img_w img_h min_w min_h max_w max_h : Nat) (stretch : Bool) :
    Option (Nat × Nat) :=
  if (img_w < min_w ∨ img_h < min_h) ∧ img_w < max_w ∧ img_h < max_h then
    if stretch then some (min_w, min_h)
    else if min_h ≤ min_w then
      let h := min max_h (ceilDiv (min_w * img_h) img_w)
      some (h * img_w / img_h, h)
    else
      let w := min max_w (ceilDiv (min_h * img_w) img_h)
      some (w, w * img_h / img_w)
  else if max_w < img_w ∨ max_h < img_h then
    if stretch then some (max_w, max_h)
    else if max_h ≤ max_w then
      let h := min max_h (ceilDiv (max_w * img_h) img_w)
      some (h * img_w / img_h, h)
    else
      let w := min max_w (ceilDiv (max_h * img_w) img_h)
      some (w, w * img_h / img_w)
  else
    none

/-- Full `Image.resize` argument normalisation (image.py lines 112-123):
`max_w or img_w` defaulting (`none`/`0` are falsy), negative-to-pixel
conversion, and the `assert min ≤ max` preconditions (`none` models an
`AssertionError`). The inner `Option (Nat × Nat)` is `resizeDims`. -/
def resize (cell_px_w cell_px_h : Nat) (img_w img_h : Nat)
    (min_w min_h : Int) (max_w max_h : Option Int) (stretch : Bool) :
    Option (Option (Nat × Nat)) :=
  let mw : Int := match max_w with
    | none => img_w
    | some v => if v = 0 then img_w else v
  let mh : Int := match max_h with
    | none => img_h
    | some v => if v = 0 then img_h else v
  let nmin_w := negative_col_to_px cell_px_w min_w
  let nmin_h := negative_row_to_px cell_px_h min_h
  let nmax_w := negative_col_to_px cell_px_w mw
  let nmax_h := negative_row_to_px cell_px_h mh
  if nmin_w ≤ nmax_w ∧ nmin_h ≤ nmax_h then
    some (resizeDims img_w img_h nmin_w.toNat nmin_h.toNat
            nmax_w.toNat nmax_h.toNat stretch)
  else
    none

/-- Result of one `Image.resize` call, tracking object identity:
`same` is the `return self` branch, `ref r` is the image object with
reference `r` (either fetched from the cache or freshly constructed). -/
inductive ResizeResult where
  | same
  | ref (r : Nat)
deriving DecidableEq

/-- The mutable state of one source `Image` that `resize` touches: its pixel
size, the `_resized_cache` mapping `(w, h)` keys to references of derived
images, a fresh-reference counter (models `type(self)(...)` constructing a
new object), and a counter of actually performed scaling operations. -/
structure ImageState where
  img_w : Nat
  img_h : Nat
  cache : List ((Nat × Nat) × Nat)
  nextRef : Nat
  scaleCount : Nat
deriving DecidableEq

/-- `dict.get` on the resize cache (first matching key). -/
def cacheGet : List ((Nat × Nat) × Nat) → (Nat × Nat) → Option Nat
  | [], _ => none
  | e :: rest, k => if e.1 = k then some e.2 else cacheGet rest k

/-- Embeds `Image.resize` end to end on the state model (image.py lines
126-171): decide the target size with `resizeDims`; `none` returns `self`;
otherwise look the target up in `_resized_cache`, returning the cached
instance on a hit, and on a miss scale (counted), store and return a fresh
instance. -/
def resizeOp (st : ImageState) (min_w min_h max_w max_h : Nat)
    (stretch : Bool) : ResizeResult × ImageState :=
  match resizeDims st.img_w st.img_h min_w min_h max_w max_h stretch with
  | none => (.same, st)
  | some wh =>
    match cacheGet st.cache wh with
    | some r => (.ref r, st)
    | none =>
      (.ref st.nextRef,
        { st with
            cache := st.cache ++ [(wh, st.nextRef)]
            nextRef := st.nextRef + 1
            scaleCount := st.scaleCount + 1 })

/-- The upscale rule exactly as claim C2 words it (for comparison with the
code): the driving axis is the one with the larger required scale-up ratio
(`min_w / img_w` versus `min_h / img_h`, compared here by cross
multiplication); that axis is scaled exactly to its minimum and the other
axis is derived from the original aspect ratio, clamped so it never exceeds
its maximum. -/
def resizeUpClaim (img_w img_h min_w min_h max_w max_h : Nat) : Nat × Nat :=
  if min_h * img_w ≤ min_w * img_h then
    (min_w, min max_h (ceilDiv (min_w * img_h) img_w))
  else
    (min max_w (ceilDiv (min_h * img_w) img_h), min_h)

/-! ### `Axis` (src/pixcat/grid.py, lines 42-53) -/

/-- One entry of an `Axis`: a static cell, or a callable producing a cell.
In the source the callable receives `(self, index)`; since the first
argument is always the axis being indexed, the embedding closes the
function over it and passes the raw index. -/
inductive AxisEntry (C : Type) where
  | static (c : C)
  | gen (f : Int → C)

/-- Embeds the `Axis` dataclass: entry list plus the `wrap_around` flag. -/
structure Axis (C : Type) where
  data : List (AxisEntry C)
  wrap_around : Bool

/-- Resolving one entry: `item(self, index) if callable(item) else item`. -/
def AxisEntry.resolve {C : Type} : AxisEntry C → Int → C
  | .static c, _ => c
  | .gen f, i => f i

/-- Embeds `Axis.__getitem__` (grid.py lines 47-53): direct Python lookup;
on `IndexError` retry at `index % len(self)` when `wrap_around`, else at
`-1`; the resolved entry, when callable, is invoked with the original
index. `none` models the call raising (possible only for an empty axis). -/
def Axis.getitem {C : Type} (a : Axis C) (i : Int) : Option C :=
  match pyListGet a.data i with
  | some item => some (item.resolve i)
  | none =>
    let j : Int := if a.wrap_around then i % (a.data.length : Int) else -1
    match pyListGet a.data j with
    | some item => some (item.resolve i)
    | none => none

/-! ### `Grid.cells_per_row` parity step (src/pixcat/grid.py, lines 75-101) -/

/-- Embeds the parity post-processing of `Grid.cells_per_row` (grid.py
lines 93-101). `can_fit` is the raw fitted column count: `max_cols` when
set, otherwise the result of the width-accumulation loop. Python's
`math.floor(can_fit / 2.0) * 2` is `can_fit / 2 * 2` on `Nat`, and
`max(1, can_fit - 1)` for even `can_fit` agrees with the truncated `Nat`
subtraction used here (both give 1 when `can_fit = 0`). -/
def cells_per_row (force_even force_odd : Bool) (can_fit : Nat) : Nat :=
  if force_even then max 2 (can_fit / 2 * 2)
  else if force_odd then
    max 1 (if can_fit % 2 = 0 then can_fit - 1 else can_fit)
  else max 1 can_fit

/-! ### `Grid` content resolution (src/pixcat/grid.py, lines 136-185) -/

/-- Python exceptions that the content-resolution path can produce. -/
inductive PyErr where
  /-- The exception raised by `Image.resize` (decode/scale failure),
  re-raised when `raise_errors` is set. -/
  | resizeError
  /-- `AttributeError`: attribute access on `None`. -/
  | attributeError
  /-- `ValueError`: `max()` applied to an empty sequence. -/
  | valueError
deriving DecidableEq

/-- A content item handed to `Grid._get_content`: `none` (the Python
`None`), a callable (which the source re-resolves on its own result), an
`Image` — carried here together with the outcome of the `cell.resize(1, 1,
col_px, row_px)` call it will receive, `.error ()` meaning that call
raises — or a text string. -/
inductive GContent where
  | none
  | thunk (c : GContent)
  | image (resizeOutcome : Except Unit (Nat × Nat))
  | text (s : String)

/-- What `Grid._get_content` returns as its first component. -/
inductive RContent where
  | image (wh : Nat × Nat)
  | text (s : String)
deriving DecidableEq

/-- Embeds `Grid._get_resized_image` (grid.py lines 154-167): try the
resize; on an exception re-raise when `raise_errors`, otherwise print when
`print_errors` (no data effect) and fall through — the Python function then
returns `None`, modelled as `.ok none`. -/
def get_resized_image (raise_errors print_errors : Bool)
    (resizeOutcome : Except Unit (Nat × Nat)) :
    Except PyErr (Option (Nat × Nat)) :=
  match resizeOutcome with
  | .ok wh => .ok (some wh)
  | .error _ => if raise_errors then .error .resizeError else .ok none

/-- Embeds `Grid._get_text` (grid.py lines 170-185) with the external
`ansiwrap` collaborator abstracted as the per-line function `wrapFn`
(for a line already within the column width both `wrap` and `shorten`
return it unchanged): split the cell on `"\n"`, wrap each line, keep the
first `maxLines` (the row height in cells) and join with `"\n"`. -/
def get_text (wrapFn : String → String) (maxLines : Nat) (cell : String) :
    String :=
  String.intercalate "\n" (((splitOnNl cell.data).map wrapFn).take maxLines)

/-- Embeds `Grid._get_content` (grid.py lines 136-151). `None` yields empty
content; a callable is resolved recursively; an `Image` goes through
`_get_resized_image` — note that when that returned `None` (swallowed
resize failure) the source evaluates `img.width` on `None`, an
`AttributeError`; text is wrapped and measured, where
`max(text.splitlines(), key=ansilen)` raises `ValueError` when
`splitlines()` is empty. `ansilen` is the visible length, `String.length`
for the plain text modelled here. -/
def get_content (raise_errors print_errors : Bool)
    (wrapFn : String → String) (maxLines : Nat) :
    GContent → Except PyErr (RContent × Nat × Nat)
  | .none => .ok (.text "", 0, 0)
  | .thunk c => get_content raise_errors print_errors wrapFn maxLines c
  | .image r =>
    match get_resized_image raise_errors print_errors r with
    | .error e => .error e
    | .ok (some (w, h)) => .ok (.image (w, h), w, h)
    | .ok Option.none => .error .attributeError
  | .text s =>
    let text := get_text wrapFn maxLines s
    match pySplitlines text with
    | [] => .error .valueError
    | ls => .ok (.text text, natListMax (ls.map String.length), ls.length)

/-! ### `PixTerminal` codec (src/pixcat/terminal.py, lines 63-114) -/

/-- A control value as passed to `get_code`/`run_code` keyword arguments:
an integer or a string. -/
inductive CtrlVal where
  | int (n : Int)
  | str (s : String)
deriving DecidableEq

/-- Python `str()` of a control value, as interpolated by `f"{k}={v}"`. -/
def CtrlVal.pystr : CtrlVal → String
  | .int n => toString n
  | .str s => s

/-- Python `dict` lookup on an insertion-ordered key/value list. -/
def dictGet : List (String × CtrlVal) → String → Option CtrlVal
  | [], _ => none
  | e :: rest, k => if e.1 = k then some e.2 else dictGet rest k

/-- Python `dict` update `d[k] = v`: replace in place when the key exists,
append otherwise (insertion order preserved). -/
def dictSet : List (String × CtrlVal) → String → CtrlVal →
    List (String × CtrlVal)
  | [], k, v => [(k, v)]
  | e :: rest, k, v =>
    if e.1 = k then (k, v) :: rest else e :: dictSet rest k v

/-- One row of the external `data.IMAGE_CONTROLS` table: the compact
protocol key for a logical control name, and the enum-value translation
table when the control is enum-valued. -/
structure ControlEntry where
  key : String
  enum : Option (CtrlVal → String)

/-- UTF-8 encoding of one character as byte values,
embedding Python `bytes(s, "utf-8")`. -/
def utf8EncodeCharNat (c : Char) : List Nat :=
  let n := c.toNat
  if n < 128 then [n]
  else if n < 2048 then [192 + n / 64, 128 + n % 64]
  else if n < 65536 then
    [224 + n / 4096, 128 + n / 64 % 64, 128 + n % 64]
  else
    [240 + n / 262144, 128 + n / 4096 % 64, 128 + n / 64 % 64, 128 + n % 64]

/-- UTF-8 bytes of a string. -/
def utf8Bytes (s : String) : List Nat :=
  (s.data.map utf8EncodeCharNat).flatten

/-- The base64 alphabet, as used by Python `base64.b64encode`. -/
def b64Alphabet : List Char :=
  "ABCDEFGHIJKLMNOPQRSTUVWXYZabcdefghijklmnopqrstuvwxyz0123456789+/".data

/-- Character for a 6-bit value. -/
def b64Char (n : Nat) : Char := b64Alphabet.getD n 'A'

/-- RFC 4648 base64 of a byte list, with `=` padding. -/
def b64Chunks : List Nat → List Char
  | b1 :: b2 :: b3 :: rest =>
    b64Char (b1 / 4) :: b64Char (b1 % 4 * 16 + b2 / 16) ::
      b64Char (b2 % 16 * 4 + b3 / 64) :: b64Char (b3 % 64) :: b64Chunks rest
  | [b1, b2] =>
    [b64Char (b1 / 4), b64Char (b1 % 4 * 16 + b2 / 16),
      b64Char (b2 % 16 * 4), '=']
  | [b1] => [b64Char (b1 / 4), b64Char (b1 % 4 * 16), '=', '=']
  | [] => []

/-- Embeds Python `base64.b64encode` on the bytes of a payload string. -/
def b64encode (bytes : List Nat) : String := String.mk (b64Chunks bytes)

/-- The `assert data.MIN_ID <= controls["id"] <= data.MAX_ID` guard of
`get_code` (terminal.py lines 64-65); a non-integer id makes the chained
comparison raise, modelled as `false`. -/
def idOk (min_id max_id : Int) (controls : List (String × CtrlVal)) : Bool :=
  match dictGet controls "id" with
  | none => true
  | some (.int n) => decide (min_id ≤ n ∧ n ≤ max_id)
  | some (.str _) => false

/-- The current `offset_x` as read by `controls.get("offset_x", 0)`;
`none` models the `TypeError` of `str + 1` for a string-valued offset. -/
def offsetXVal (controls : List (String × CtrlVal)) : Option Int :=
  match dictGet controls "offset_x" with
  | none => some 0
  | some (.int n) => some n
  | some (.str _) => none

/-- The `",".join(f"{k}={v}" for k, v in real_keys.items())` step of
`get_code` (terminal.py lines 72-79): translate each logical name through
the `img_controls` table, translate enum values, and comma-join the
`key=value` pairs. -/
def keysString (img_controls : String → ControlEntry)
    (controls : List (String × CtrlVal)) : String :=
  String.intercalate ","
    (controls.map (fun p =>
      let e := img_controls p.1
      e.key ++ "=" ++
        (match e.enum with
         | some f => f p.2
         | none => p.2.pystr)))

/-- Embeds `PixTerminal.get_code` (terminal.py lines 63-86), parameterised
over the external `data.py` constants (`esc`, id bounds, control table):
check the id bound, add 1 to `offset_x` (inserting the key when absent),
base64 the payload when non-empty, and frame everything as
`esc ++ "_G" ++ keys ++ ";" ++ payload ++ esc ++ "\\"`. `none` models an
`AssertionError`/`TypeError` raised before any output. -/
def get_code (esc : String) (min_id max_id : Int)
    (img_controls : String → ControlEntry)
    (payload : String) (controls : List (String × CtrlVal)) :
    Option String :=
  if idOk min_id max_id controls then
    match offsetXVal controls with
    | none => none
    | some n =>
      let controls2 := dictSet controls "offset_x" (.int (n + 1))
      let payload2 := if payload = "" then "" else b64encode (utf8Bytes payload)
      some (esc ++ "_G" ++ keysString img_controls controls2 ++ ";" ++
        payload2 ++ esc ++ "\\")
  else none

/-- Whether `run_code` waits for a reply:
`controls.get("action", "transmit") in self.actions_with_answer`
(terminal.py line 95); a non-string action is never a member of the
external set of action names. -/
def wantsAnswer (actions_with_answer : List String)
    (controls : List (String × CtrlVal)) : Bool :=
  match dictGet controls "action" with
  | none => actions_with_answer.contains "transmit"
  | some (.str s) => actions_with_answer.contains s
  | some (.int _) => false

/-- The character-by-character read loop of `run_code` (terminal.py lines
101-107): consume `stdin` until the terminator `'\\'` is read, returning
the accumulated characters (terminator included); `none` models the read
blocking forever on an exhausted stream, so that the alarm fires. -/
def readUntilBackslash : List Char → Option (List Char)
  | [] => none
  | c :: rest =>
    if c = '\\' then some [c]
    else
      match readUntilBackslash rest with
      | none => none
      | some cs => some (c :: cs)

/-- Substring containment on character lists, embedding Python
`needle in answer`. -/
def hasSubstr : List Char → List Char → Bool
  | needle, [] => needle.isEmpty
  | needle, c :: t => needle.isPrefixOf (c :: t) || hasSubstr needle t

/-- How one `run_code` call ends. -/
inductive RunOutcome where
  /-- The action elicits no reply; `run_code` returns right after printing. -/
  | noAnswer
  /-- Reply read and it contains the success marker `";OK"` (or is empty). -/
  | ok (answer : String)
  /-- `KittyAnswerError code answer`: reply read but no success marker;
  carries the outbound message and the raw reply. -/
  | answerError (code : String) (answer : String)
  /-- The alarm fired while reading (`KittyAnswerTimeout`). -/
  | timedOut
  /-- `get_code` itself raised. -/
  | codeError
deriving DecidableEq

/-- Result of `run_code` together with whether the `signal.alarm` deadline
timer is still armed when the call returns or raises (in the `timedOut`
case the alarm has fired rather than been cancelled by `alarm(0)`). -/
structure RunResult where
  outcome : RunOutcome
  alarmArmed : Bool
deriving DecidableEq

/-- Embeds `PixTerminal.run_code` (terminal.py lines 89-114): build the
code with `get_code` and print it; return at once when the action elicits
no reply; otherwise arm the alarm, read until the terminator, cancel the
alarm with `signal.alarm(0)`, and raise `KittyAnswerError(code, answer)`
when the non-empty answer lacks the `";OK"` marker. -/
def run_code (esc : String) (min_id max_id : Int)
    (img_controls : String → ControlEntry)
    (actions_with_answer : List String)
    (payload : String) (controls : List (String × CtrlVal))
    (stdin : List Char) : RunResult :=
  match get_code esc min_id max_id img_controls payload controls with
  | none => ⟨.codeError, false⟩
  | some code =>
    if wantsAnswer actions_with_answer controls then
      match readUntilBackslash stdin with
      | none => ⟨.timedOut, true⟩
      | some chars =>
        let answer : String := String.mk chars
        if answer ≠ "" ∧ hasSubstr ";OK".data chars = false then
          ⟨.answerError code answer, false⟩
        else ⟨.ok answer, false⟩
    else ⟨.noAnswer, false⟩

/-- A concrete 100×50 source image with an empty resize cache, used by the
witnesses below. -/
def sampleImage : ImageState := ⟨100, 50, [], 7, 0⟩

/-! ### Helper lemmas -/

theorem le_mul_ceilDiv (a b : Nat) (hb : 0 < b) : a ≤ b * ceilDiv a b := by
  have h := Nat.div_add_mod (a + b - 1) b
  have h2 : (a + b - 1) % b < b := Nat.mod_lt _ hb
  unfold ceilDiv
  omega

theorem mul_ceilDiv_lt (a b : Nat) (hb : 0 < b) : b * ceilDiv a b < a + b := by
  have h := Nat.div_add_mod (a + b - 1) b
  have h2 : (a + b - 1) % b < b := Nat.mod_lt _ hb
  unfold ceilDiv
  omega

theorem div_mul_bounds (a b : Nat) (hb : 0 < b) :
    b * (a / b) ≤ a ∧ a < b * (a / b) + b := by
  have h := Nat.div_add_mod a b
  have h2 : a % b < b := Nat.mod_lt _ hb
  omega

theorem cacheGet_append (c : List ((Nat × Nat) × Nat)) (k : Nat × Nat) (r : Nat)
    (h : cacheGet c k = none) : cacheGet (c ++ [(k, r)]) k = some r := by
  induction c with
  | nil => simp [cacheGet]
  | cons e rest ih =>
    simp only [cacheGet] at h
    by_cases he : e.1 = k
    · rw [if_pos he] at h
      exact absurd h (by simp)
    · rw [if_neg he] at h
      simp only [List.cons_append, cacheGet, if_neg he]
      exact ih h

/-! ### Claim C1 -/

/-- Claim C1, amended. For positive original dimensions `(w0, h0)` and
positive maxima `(W, H)`, `resize(min_w=1, min_h=1, max_w=W, max_h=H,
stretch=false)` either changes nothing (only when already `w0 ≤ W` and
`h0 ≤ H`) or picks `(w, h)` so that the clamped axis of the downscale
branch is within its maximum — `h ≤ H` when `W ≥ H`, `w ≤ W` when
`W < H` — and the width/height ratio equals `w0/h0` up to the floor
rounding (`|w·h0 − h·w0| < h0`, resp. `|h·w0 − w·h0| < w0`); the derived
axis can exceed its own maximum (see the counterexample), which is the only
part of the original claim that fails. A 100×50 image with `W = H = 50`
yields exactly 50×25. -/
theorem resize_fit_c1 (w0 h0 W H : Nat)
    (hw0 : 0 < w0) (hh0 : 0 < h0) (hW : 0 < W) (hH : 0 < H) :
    (resizeDims w0 h0 1 1 W H false = none → w0 ≤ W ∧ h0 ≤ H) ∧
    (∀ w h, resizeDims w0 h0 1 1 W H false = some (w, h) →
      (H ≤ W → h ≤ H ∧ w * h0 ≤ h * w0 ∧ h * w0 < w * h0 + h0) ∧
      (W < H → w ≤ W ∧ h * w0 ≤ w * h0 ∧ w * h0 < h * w0 + w0)) ∧
    resizeDims 100 50 1 1 50 50 false = some (50, 25) := by
  have hup : ¬((w0 < 1 ∨ h0 < 1) ∧ w0 < W ∧ h0 < H) := by omega
  refine ⟨?_, ?_, by decide⟩
  · intro hnone
    by_cases hdown : W < w0 ∨ H < h0
    · exfalso
      unfold resizeDims at hnone
      rw [if_neg hup, if_pos hdown] at hnone
      split_ifs at hnone
    · omega
  · intro w h hsome
    by_cases hdown : W < w0 ∨ H < h0
    · by_cases hHW : H ≤ W
      · have heq : resizeDims w0 h0 1 1 W H false =
            some (min H (ceilDiv (W * h0) w0) * w0 / h0,
              min H (ceilDiv (W * h0) w0)) := by
          unfold resizeDims
          rw [if_neg hup, if_pos hdown, if_neg Bool.false_ne_true, if_pos hHW]
        rw [heq] at hsome
        simp only [Option.some.injEq, Prod.mk.injEq] at hsome
        obtain ⟨hw, hh⟩ := hsome
        subst hw hh
        have hb := div_mul_bounds (min H (ceilDiv (W * h0) w0) * w0) h0 hh0
        have hc : min H (ceilDiv (W * h0) w0) * w0 / h0 * h0 =
            h0 * (min H (ceilDiv (W * h0) w0) * w0 / h0) := Nat.mul_comm _ _
        constructor
        · intro _
          refine ⟨Nat.min_le_left _ _, ?_, ?_⟩ <;> omega
        · intro hlt; omega
      · have heq : resizeDims w0 h0 1 1 W H false =
            some (min W (ceilDiv (H * w0) h0),
              min W (ceilDiv (H * w0) h0) * h0 / w0) := by
          unfold resizeDims
          rw [if_neg hup, if_pos hdown, if_neg Bool.false_ne_true, if_neg hHW]
        rw [heq] at hsome
        simp only [Option.some.injEq, Prod.mk.injEq] at hsome
        obtain ⟨hw, hh⟩ := hsome
        subst hw hh
        have hb := div_mul_bounds (min W (ceilDiv (H * w0) h0) * h0) w0 hw0
        have hc : min W (ceilDiv (H * w0) h0) * h0 / w0 * w0 =
            w0 * (min W (ceilDiv (H * w0) h0) * h0 / w0) := Nat.mul_comm _ _
        constructor
        · intro hge; omega
        · intro _
          refine ⟨Nat.min_le_left _ _, ?_, ?_⟩ <;> omega
    · have heq : resizeDims w0 h0 1 1 W H false = none := by
        unfold resizeDims
        rw [if_neg hup, if_neg hdown]
      rw [heq] at hsome
      exact absurd hsome (by simp)

/-- Claim C1, counterexample: a 3×2 image resized with `min=(1,1)`,
`max=(2,2)`, `stretch=false` yields width 3, which exceeds `max_w = 2`
(the height is clamped to 2, then the width is recomputed from the aspect
ratio with no clamp), refuting `width ≤ W`. -/
theorem resize_fit_c1_cex :
    resizeDims 3 2 1 1 2 2 false = some (3, 2) ∧ ¬(3 ≤ 2) := by decide

/-- Claim C1, witness: the amended statement applied to the spec's own
scenario, a 100×50 image with `W = H = 50`. -/
theorem resize_fit_c1_witness :
    0 < 100 ∧ 0 < 50 ∧ 0 < 50 ∧ 0 < 50 ∧
    ((resizeDims 100 50 1 1 50 50 false = none → 100 ≤ 50 ∧ 50 ≤ 50) ∧
    (∀ w h, resizeDims 100 50 1 1 50 50 false = some (w, h) →
      (50 ≤ 50 → h ≤ 50 ∧ w * 50 ≤ h * 100 ∧ h * 100 < w * 50 + 50) ∧
      (50 < 50 → w ≤ 50 ∧ h * 100 ≤ w * 50 ∧ w * 50 < h * 100 + 100)) ∧
    resizeDims 100 50 1 1 50 50 false = some (50, 25)) :=
  ⟨by decide, by decide, by decide, by decide,
    resize_fit_c1 100 50 50 50 (by decide) (by decide) (by decide) (by decide)⟩

/-! ### Claim C2 -/

/-- Claim C2, amended. In the non-stretch upscale branch the driving axis
is the one with the larger requested MINIMUM (`min_w >= min_h`, width
winning ties) — not the larger required scale-up ratio as the original
claim says. The derived axis is computed from the driver's ratio with
ceil and clamped at its maximum, and the driver axis is then recomputed
from the derived axis by floor (so the driver reaches at least its minimum
whenever the derived axis was not clamped). The downscale branch follows
the symmetric rule comparing the maxima (`max_w >= max_h`), with the
derived axis clamped at its maximum; there is no clamp floor at the minima. -/
theorem resize_driver_c2 (w0 h0 min_w min_h max_w max_h : Nat)
    (hw0 : 0 < w0) (hh0 : 0 < h0) :
    ((w0 < min_w ∨ h0 < min_h) ∧ w0 < max_w ∧ h0 < max_h →
      (min_h ≤ min_w →
        resizeDims w0 h0 min_w min_h max_w max_h false =
          some (min max_h (ceilDiv (min_w * h0) w0) * w0 / h0,
            min max_h (ceilDiv (min_w * h0) w0)) ∧
        min max_h (ceilDiv (min_w * h0) w0) ≤ max_h ∧
        (ceilDiv (min_w * h0) w0 ≤ max_h →
          min_w ≤ min max_h (ceilDiv (min_w * h0) w0) * w0 / h0)) ∧
      (min_w < min_h →
        resizeDims w0 h0 min_w min_h max_w max_h false =
          some (min max_w (ceilDiv (min_h * w0) h0),
            min max_w (ceilDiv (min_h * w0) h0) * h0 / w0) ∧
        min max_w (ceilDiv (min_h * w0) h0) ≤ max_w ∧
        (ceilDiv (min_h * w0) h0 ≤ max_w →
          min_h ≤ min max_w (ceilDiv (min_h * w0) h0) * h0 / w0))) ∧
    (¬((w0 < min_w ∨ h0 < min_h) ∧ w0 < max_w ∧ h0 < max_h) →
      max_w < w0 ∨ max_h < h0 →
      (max_h ≤ max_w →
        resizeDims w0 h0 min_w min_h max_w max_h false =
          some (min max_h (ceilDiv (max_w * h0) w0) * w0 / h0,
            min max_h (ceilDiv (max_w * h0) w0)) ∧
        min max_h (ceilDiv (max_w * h0) w0) ≤ max_h ∧
        (ceilDiv (max_w * h0) w0 ≤ max_h →
          max_w ≤ min max_h (ceilDiv (max_w * h0) w0) * w0 / h0)) ∧
      (max_w < max_h →
        resizeDims w0 h0 min_w min_h max_w max_h false =
          some (min max_w (ceilDiv (max_h * w0) h0),
            min max_w (ceilDiv (max_h * w0) h0) * h0 / w0) ∧
        min max_w (ceilDiv (max_h * w0) h0) ≤ max_w ∧
        (ceilDiv (max_h * w0) h0 ≤ max_w →
          max_h ≤ min max_w (ceilDiv (max_h * w0) h0) * h0 / w0))) := by
  constructor
  · intro hup
    constructor
    · intro hmm
      have heq : resizeDims w0 h0 min_w min_h max_w max_h false =
          some (min max_h (ceilDiv (min_w * h0) w0) * w0 / h0,
            min max_h (ceilDiv (min_w * h0) w0)) := by
        unfold resizeDims
        rw [if_pos hup, if_neg Bool.false_ne_true, if_pos hmm]
      refine ⟨heq, Nat.min_le_left _ _, ?_⟩
      intro hnc
      rw [Nat.min_eq_right hnc, Nat.le_div_iff_mul_le hh0]
      have hle := le_mul_ceilDiv (min_w * h0) w0 hw0
      have hcm : w0 * ceilDiv (min_w * h0) w0 = ceilDiv (min_w * h0) w0 * w0 :=
        Nat.mul_comm _ _
      omega
    · intro hmm
      have hmm' : ¬(min_h ≤ min_w) := by omega
      have heq : resizeDims w0 h0 min_w min_h max_w max_h false =
          some (min max_w (ceilDiv (min_h * w0) h0),
            min max_w (ceilDiv (min_h * w0) h0) * h0 / w0) := by
        unfold resizeDims
        rw [if_pos hup, if_neg Bool.false_ne_true, if_neg hmm']
      refine ⟨heq, Nat.min_le_left _ _, ?_⟩
      intro hnc
      rw [Nat.min_eq_right hnc, Nat.le_div_iff_mul_le hw0]
      have hle := le_mul_ceilDiv (min_h * w0) h0 hh0
      have hcm : h0 * ceilDiv (min_h * w0) h0 = ceilDiv (min_h * w0) h0 * h0 :=
        Nat.mul_comm _ _
      omega
  · intro hnup hdown
    constructor
    · intro hMM
      have heq : resizeDims w0 h0 min_w min_h max_w max_h false =
          some (min max_h (ceilDiv (max_w * h0) w0) * w0 / h0,
            min max_h (ceilDiv (max_w * h0) w0)) := by
        unfold resizeDims
        rw [if_neg hnup, if_pos hdown, if_neg Bool.false_ne_true, if_pos hMM]
      refine ⟨heq, Nat.min_le_left _ _, ?_⟩
      intro hnc
      rw [Nat.min_eq_right hnc, Nat.le_div_iff_mul_le hh0]
      have hle := le_mul_ceilDiv (max_w * h0) w0 hw0
      have hcm : w0 * ceilDiv (max_w * h0) w0 = ceilDiv (max_w * h0) w0 * w0 :=
        Nat.mul_comm _ _
      omega
    · intro hMM
      have hMM' : ¬(max_h ≤ max_w) := by omega
      have heq : resizeDims w0 h0 min_w min_h max_w max_h false =
          some (min max_w (ceilDiv (max_h * w0) h0),
            min max_w (ceilDiv (max_h * w0) h0) * h0 / w0) := by
        unfold resizeDims
        rw [if_neg hnup, if_pos hdown, if_neg Bool.false_ne_true, if_neg hMM']
      refine ⟨heq, Nat.min_le_left _ _, ?_⟩
      intro hnc
      rw [Nat.min_eq_right hnc, Nat.le_div_iff_mul_le hw0]
      have hle := le_mul_ceilDiv (max_h * w0) h0 hh0
      have hcm : h0 * ceilDiv (max_h * w0) h0 = ceilDiv (max_h * w0) h0 * h0 :=
        Nat.mul_comm _ _
      omega

/-- Claim C2, counterexample: a 100×1 image with `min=(50,40)`,
`max=(1000,1000)` takes the upscale branch; the larger required scale-up
ratio is `min_h/h0 = 40/1` (versus `min_w/w0 = 50/100`), so the claim's
rule drives the height to its minimum 40 — but the code compares the raw
minima (`50 >= 40`), drives the width, and returns `(100, 1)`, not
`(1000, 40)`. -/
theorem resize_driver_c2_cex :
    (((100 : Nat) < 50 ∨ (1 : Nat) < 40) ∧ (100 : Nat) < 1000 ∧
      (1 : Nat) < 1000) ∧
    resizeDims 100 1 50 40 1000 1000 false = some (100, 1) ∧
    resizeUpClaim 100 1 50 40 1000 1000 = (1000, 40) ∧
    ((100, 1) : Nat × Nat) ≠ (1000, 40) := by decide

/-- Claim C2, witness: the amended statement applied to a 3×7 image with
`min=(5,1)`, `max=(100,100)` (upscale, width is the driving axis). -/
theorem resize_driver_c2_witness :
    0 < 3 ∧ 0 < 7 ∧
    ((((3 : Nat) < 5 ∨ (7 : Nat) < 1) ∧ (3 : Nat) < 100 ∧ (7 : Nat) < 100 →
      ((1 : Nat) ≤ 5 →
        resizeDims 3 7 5 1 100 100 false =
          some (min 100 (ceilDiv (5 * 7) 3) * 3 / 7,
            min 100 (ceilDiv (5 * 7) 3)) ∧
        min 100 (ceilDiv (5 * 7) 3) ≤ 100 ∧
        (ceilDiv (5 * 7) 3 ≤ 100 →
          5 ≤ min 100 (ceilDiv (5 * 7) 3) * 3 / 7)) ∧
      ((5 : Nat) < 1 →
        resizeDims 3 7 5 1 100 100 false =
          some (min 100 (ceilDiv (1 * 3) 7),
            min 100 (ceilDiv (1 * 3) 7) * 7 / 3) ∧
        min 100 (ceilDiv (1 * 3) 7) ≤ 100 ∧
        (ceilDiv (1 * 3) 7 ≤ 100 →
          1 ≤ min 100 (ceilDiv (1 * 3) 7) * 7 / 3))) ∧
    (¬(((3 : Nat) < 5 ∨ (7 : Nat) < 1) ∧ (3 : Nat) < 100 ∧ (7 : Nat) < 100) →
      (100 : Nat) < 3 ∨ (100 : Nat) < 7 →
      ((100 : Nat) ≤ 100 →
        resizeDims 3 7 5 1 100 100 false =
          some (min 100 (ceilDiv (100 * 7) 3) * 3 / 7,
            min 100 (ceilDiv (100 * 7) 3)) ∧
        min 100 (ceilDiv (100 * 7) 3) ≤ 100 ∧
        (ceilDiv (100 * 7) 3 ≤ 100 →
          100 ≤ min 100 (ceilDiv (100 * 7) 3) * 3 / 7)) ∧
      ((100 : Nat) < 100 →
        resizeDims 3 7 5 1 100 100 false =
          some (min 100 (ceilDiv (100 * 3) 7),
            min 100 (ceilDiv (100 * 3) 7) * 7 / 3) ∧
        min 100 (ceilDiv (100 * 3) 7) ≤ 100 ∧
        (ceilDiv (100 * 3) 7 ≤ 100 →
          100 ≤ min 100 (ceilDiv (100 * 3) 7) * 7 / 3)))) :=
  ⟨by decide, by decide, resize_driver_c2 3 7 5 1 100 100 (by decide) (by decide)⟩

/-! ### Claim C9 -/

/-- Claim C9: when the current size is neither below the minima in the
upscale sense (the full upscale guard is false) nor above a maximum,
`Image.resize` takes the "Nothing to do" branch and returns the very same
instance with nothing cached and no scaling performed — idempotence by
reference equality. -/
theorem resize_noop_c9 (st : ImageState) (min_w min_h max_w max_h : Nat)
    (stretch : Bool)
    (hup : ¬((st.img_w < min_w ∨ st.img_h < min_h) ∧
      st.img_w < max_w ∧ st.img_h < max_h))
    (hdown : ¬(max_w < st.img_w ∨ max_h < st.img_h)) :
    resizeOp st min_w min_h max_w max_h stretch = (.same, st) := by
  have h : resizeDims st.img_w st.img_h min_w min_h max_w max_h stretch =
      none := by
    simp only [resizeDims, if_neg hup, if_neg hdown]
  simp [resizeOp, h]

/-- Claim C9, witness: a 100×50 image resized with `min=(1,1)`,
`max=(200,200)` is already within bounds and is returned unchanged. -/
theorem resize_noop_c9_witness :
    ¬((sampleImage.img_w < 1 ∨ sampleImage.img_h < 1) ∧
      sampleImage.img_w < 200 ∧ sampleImage.img_h < 200) ∧
    ¬(200 < sampleImage.img_w ∨ 200 < sampleImage.img_h) ∧
    resizeOp sampleImage 1 1 200 200 false = (.same, sampleImage) :=
  ⟨by decide, by decide,
    resize_noop_c9 sampleImage 1 1 200 200 false (by decide) (by decide)⟩

/-! ### Claim C8 -/

/-- Claim C8: two `resize` calls on the same source whose target dimensions
resolve to the same non-trivial `(w, h)` return the identical instance —
the second call leaves the state untouched and returns exactly what the
first call returned (so no duplicate scaling work); a cache hit returns
the cached reference without any state change; a cache miss returns a
fresh instance, stores it in the cache under `(w, h)` and counts exactly
one scaling operation. -/
theorem resize_cache_c8 (st : ImageState)
    (m1w m1h M1w M1h : Nat) (s1 : Bool)
    (m2w m2h M2w M2h : Nat) (s2 : Bool) (w h : Nat)
    (h1 : resizeDims st.img_w st.img_h m1w m1h M1w M1h s1 = some (w, h))
    (h2 : resizeDims st.img_w st.img_h m2w m2h M2w M2h s2 = some (w, h)) :
    resizeOp (resizeOp st m1w m1h M1w M1h s1).2 m2w m2h M2w M2h s2 =
      ((resizeOp st m1w m1h M1w M1h s1).1,
        (resizeOp st m1w m1h M1w M1h s1).2) ∧
    (∀ r, cacheGet st.cache (w, h) = some r →
      resizeOp st m1w m1h M1w M1h s1 = (.ref r, st)) ∧
    (cacheGet st.cache (w, h) = none →
      (resizeOp st m1w m1h M1w M1h s1).1 = .ref st.nextRef ∧
      cacheGet (resizeOp st m1w m1h M1w M1h s1).2.cache (w, h) =
        some st.nextRef ∧
      (resizeOp st m1w m1h M1w M1h s1).2.scaleCount = st.scaleCount + 1) := by
  cases hc : cacheGet st.cache (w, h) with
  | some r =>
    have e1 : resizeOp st m1w m1h M1w M1h s1 = (.ref r, st) := by
      simp [resizeOp, h1, hc]
    refine ⟨?_, ?_, ?_⟩
    · rw [e1]
      simp [resizeOp, h2, hc]
    · intro r' hr'
      have : r = r' := by injection hr'
      subst this
      exact e1
    · intro hn
      exact absurd hn (by simp)
  | none =>
    have e1 : resizeOp st m1w m1h M1w M1h s1 =
        (.ref st.nextRef,
          { st with
              cache := st.cache ++ [((w, h), st.nextRef)]
              nextRef := st.nextRef + 1
              scaleCount := st.scaleCount + 1 }) := by
      simp [resizeOp, h1, hc]
    have hg : cacheGet (st.cache ++ [((w, h), st.nextRef)]) (w, h) =
        some st.nextRef := cacheGet_append _ _ _ hc
    refine ⟨?_, ?_, ?_⟩
    · rw [e1]
      simp [resizeOp, h2, hg]
    · intro r' hr'
      exact absurd hr' (by simp)
    · intro _
      rw [e1]
      exact ⟨rfl, hg, rfl⟩

/-- Claim C8, witness: resizing the 100×50 sample image twice with
`min=(1,1)`, `max=(50,50)` resolves to target `(50, 25)` both times; the
first call is a miss that stores reference 7, the second returns the same
reference with no further work. -/
theorem resize_cache_c8_witness :
    resizeDims sampleImage.img_w sampleImage.img_h 1 1 50 50 false =
      some (50, 25) ∧
    (resizeOp (resizeOp sampleImage 1 1 50 50 false).2 1 1 50 50 false =
      ((resizeOp sampleImage 1 1 50 50 false).1,
        (resizeOp sampleImage 1 1 50 50 false).2) ∧
    (∀ r, cacheGet sampleImage.cache (50, 25) = some r →
      resizeOp sampleImage 1 1 50 50 false = (.ref r, sampleImage)) ∧
    (cacheGet sampleImage.cache (50, 25) = none →
      (resizeOp sampleImage 1 1 50 50 false).1 = .ref sampleImage.nextRef ∧
      cacheGet (resizeOp sampleImage 1 1 50 50 false).2.cache (50, 25) =
        some sampleImage.nextRef ∧
      (resizeOp sampleImage 1 1 50 50 false).2.scaleCount =
        sampleImage.scaleCount + 1)) :=
  ⟨by decide,
    resize_cache_c8 sampleImage 1 1 50 50 false 1 1 50 50 false 50 25
      (by decide) (by decide)⟩

/-! ### Claim C4 -/


theorem pyListGet_nonneg {α : Type} (xs : List α) (j : Int) (hj : 0 ≤ j) :
    pyListGet xs j = xs.get? j.toNat := by
  simp [pyListGet, hj]

theorem pyListGet_neg_one {α : Type} (xs : List α) (h : 0 < xs.length) :
    pyListGet xs (-1) = xs.get? (xs.length - 1) := by
  have h1 : ¬((0 : Int) ≤ -1) := by decide
  have h2 : ((-1 : Int)).natAbs ≤ xs.length := by
    have : ((-1 : Int)).natAbs = 1 := rfl
    omega
  simp only [pyListGet, h1, if_false, h2, if_true]
  rfl

/-- Claim C4: for a non-empty axis, `Axis.__getitem__` returns a cell for
every integer index without raising: an in-range index (Python negative
indexing included) resolves the directly looked-up entry; an out-of-range
index resolves the entry at `index % len` when `wrap_around` is set and
the last entry otherwise; a callable entry is invoked with the original
index (the axis itself being the closed-over first argument). -/
theorem axis_getitem_c4 {C : Type} (a : Axis C) (i : Int)
    (hne : 0 < a.data.length) :
    (∃ c, a.getitem i = some c) ∧
    (∀ e, pyListGet a.data i = some e → a.getitem i = some (e.resolve i)) ∧
    (pyListGet a.data i = none → a.wrap_around = true →
      ∃ e, a.data.get? (i % (a.data.length : Int)).toNat = some e ∧
        a.getitem i = some (e.resolve i)) ∧
    (pyListGet a.data i = none → a.wrap_around = false →
      ∃ e, a.data.get? (a.data.length - 1) = some e ∧
        a.getitem i = some (e.resolve i)) := by
  cases hd : pyListGet a.data i with
  | some e =>
    have hg : a.getitem i = some (e.resolve i) := by
      unfold Axis.getitem
      rw [hd]
    refine ⟨⟨e.resolve i, hg⟩, ?_, ?_, ?_⟩
    · intro e' he'
      have : e = e' := by injection he'
      subst this
      exact hg
    · intro hn
      exact absurd hn (by simp)
    · intro hn
      exact absurd hn (by simp)
  | none =>
    cases hw : a.wrap_around with
    | true =>
      have hjnn : 0 ≤ i % (a.data.length : Int) :=
        Int.emod_nonneg i (by omega)
      have hjlt : i % (a.data.length : Int) < (a.data.length : Int) :=
        Int.emod_lt_of_pos i (by omega)
      have hlt : (i % (a.data.length : Int)).toNat < a.data.length := by
        omega
      have hget := List.get?_eq_get hlt
      set e := a.data.get ⟨(i % (a.data.length : Int)).toNat, hlt⟩ with he
      have hpg : pyListGet a.data (i % (a.data.length : Int)) = some e := by
        rw [pyListGet_nonneg a.data _ hjnn, hget]
      have hg : a.getitem i = some (e.resolve i) := by
        unfold Axis.getitem
        rw [hd]
        simp only [hw, if_true]
        rw [hpg]
      refine ⟨⟨e.resolve i, hg⟩, ?_, ?_, ?_⟩
      · intro e' he'
        exact absurd he' (by simp)
      · intro _ _
        exact ⟨e, hget, hg⟩
      · intro _ hww
        exact absurd hww (by simp)
    | false =>
      have hlt : a.data.length - 1 < a.data.length := by omega
      have hget := List.get?_eq_get hlt
      set e := a.data.get ⟨a.data.length - 1, hlt⟩ with he
      have hpg : pyListGet a.data (-1) = some e := by
        rw [pyListGet_neg_one a.data hne, hget]
      have hg : a.getitem i = some (e.resolve i) := by
        unfold Axis.getitem
        rw [hd]
        simp only [hw, Bool.false_eq_true, if_false]
        rw [hpg]
      refine ⟨⟨e.resolve i, hg⟩, ?_, ?_, ?_⟩
      · intro e' he'
        exact absurd he' (by simp)
      · intro _ hww
        exact absurd hww (by simp)
      · intro _ _
        exact ⟨e, hget, hg⟩

/-- Claim C4, witness: the two-entry axis `[static 7, gen id]` without
wraparound, indexed out of range at 5, clamps to the last (generator)
entry and yields `5`. -/
theorem axis_getitem_c4_witness :
    0 < (Axis.mk [AxisEntry.static 7, AxisEntry.gen (fun i => i.toNat)]
      false : Axis Nat).data.length ∧
    ((∃ c, (Axis.mk [AxisEntry.static 7, AxisEntry.gen (fun i => i.toNat)]
        false : Axis Nat).getitem 5 = some c) ∧
    (∀ e, pyListGet (Axis.mk [AxisEntry.static 7,
        AxisEntry.gen (fun i => i.toNat)] false : Axis Nat).data 5 = some e →
      (Axis.mk [AxisEntry.static 7, AxisEntry.gen (fun i => i.toNat)]
        false : Axis Nat).getitem 5 = some (e.resolve 5)) ∧
    (pyListGet (Axis.mk [AxisEntry.static 7,
        AxisEntry.gen (fun i => i.toNat)] false : Axis Nat).data 5 = none →
      (Axis.mk [AxisEntry.static 7, AxisEntry.gen (fun i => i.toNat)]
        false : Axis Nat).wrap_around = true →
      ∃ e, (Axis.mk [AxisEntry.static 7, AxisEntry.gen (fun i => i.toNat)]
          false : Axis Nat).data.get?
          ((5 : Int) % ((Axis.mk [AxisEntry.static 7,
            AxisEntry.gen (fun i => i.toNat)] false : Axis Nat).data.length :
              Int)).toNat = some e ∧
        (Axis.mk [AxisEntry.static 7, AxisEntry.gen (fun i => i.toNat)]
          false : Axis Nat).getitem 5 = some (e.resolve 5)) ∧
    (pyListGet (Axis.mk [AxisEntry.static 7,
        AxisEntry.gen (fun i => i.toNat)] false : Axis Nat).data 5 = none →
      (Axis.mk [AxisEntry.static 7, AxisEntry.gen (fun i => i.toNat)]
        false : Axis Nat).wrap_around = false →
      ∃ e, (Axis.mk [AxisEntry.static 7, AxisEntry.gen (fun i => i.toNat)]
          false : Axis Nat).data.get?
          ((Axis.mk [AxisEntry.static 7, AxisEntry.gen (fun i => i.toNat)]
            false : Axis Nat).data.length - 1) = some e ∧
        (Axis.mk [AxisEntry.static 7, AxisEntry.gen (fun i => i.toNat)]
          false : Axis Nat).getitem 5 = some (e.resolve 5))) :=
  ⟨by decide,
    axis_getitem_c4 (Axis.mk [AxisEntry.static 7,
      AxisEntry.gen (fun i => i.toNat)] false) 5 (by decide)⟩

/-! ### Claim C5 -/

/-- Claim C5: the parity step of `Grid.cells_per_row` applied to the raw
fitted count `n`. With `force_even` the result is `max 2 (n / 2 * 2)` —
even, at least 2, at most `max 2 n`, and no even number `≤ n` exceeds it
(so it is the nearest even number not above `n`, floored at 2). With
`force_odd` alone the result is the nearest odd number not above `n`
(subtracting 1 exactly when `n` is even), floored at 1. With neither flag
the result is `max 1 n`. `force_even` is checked first, so even parity
wins when both flags are set; the result is always at least 1, and at
least 2 under `force_even`; and `n = 3` with `force_even` yields 2. -/
theorem cells_per_row_c5 (fe fo : Bool) (n : Nat) :
    cells_per_row true fo n = max 2 (n / 2 * 2) ∧
    cells_per_row true fo n % 2 = 0 ∧
    2 ≤ cells_per_row true fo n ∧
    cells_per_row true fo n ≤ max 2 n ∧
    (∀ m, m % 2 = 0 → m ≤ n → m ≤ cells_per_row true fo n) ∧
    cells_per_row false true n = max 1 (if n % 2 = 0 then n - 1 else n) ∧
    cells_per_row false true n % 2 = 1 ∧
    1 ≤ cells_per_row false true n ∧
    cells_per_row false true n ≤ max 1 n ∧
    (∀ m, m % 2 = 1 → m ≤ n → m ≤ cells_per_row false true n) ∧
    cells_per_row false false n = max 1 n ∧
    cells_per_row true true n = cells_per_row true false n ∧
    1 ≤ cells_per_row fe fo n ∧
    cells_per_row true fo 3 = 2 := by
  have h1 : cells_per_row true fo n = max 2 (n / 2 * 2) := by
    simp [cells_per_row]
  have h2 : cells_per_row false true n =
      max 1 (if n % 2 = 0 then n - 1 else n) := by
    simp [cells_per_row]
  have h3 : cells_per_row false false n = max 1 n := by
    simp [cells_per_row]
  have hd2 := Nat.div_add_mod n 2
  have hm2 : n % 2 < 2 := Nat.mod_lt _ (by omega)
  refine ⟨h1, ?_, ?_, ?_, ?_, h2, ?_, ?_, ?_, ?_, h3, by simp [cells_per_row],
    ?_, by cases fo <;> decide⟩
  · rw [h1]; omega
  · rw [h1]; omega
  · rw [h1]; omega
  · intro m hm hmn
    rw [h1]; omega
  · rw [h2]; split_ifs <;> omega
  · rw [h2]; split_ifs <;> omega
  · rw [h2]; split_ifs <;> omega
  · intro m hm hmn
    rw [h2]; split_ifs <;> omega
  · cases fe <;> cases fo <;> simp [cells_per_row]

/-- Claim C5, witness: the statement at `force_even = force_odd = true`,
`n = 3`, covering the spec's scenario `3 → 2`. -/
theorem cells_per_row_c5_witness :
    cells_per_row true true 3 = max 2 (3 / 2 * 2) ∧
    cells_per_row true true 3 % 2 = 0 ∧
    2 ≤ cells_per_row true true 3 ∧
    cells_per_row true true 3 ≤ max 2 3 ∧
    (∀ m, m % 2 = 0 → m ≤ 3 → m ≤ cells_per_row true true 3) ∧
    cells_per_row false true 3 = max 1 (if 3 % 2 = 0 then 3 - 1 else 3) ∧
    cells_per_row false true 3 % 2 = 1 ∧
    1 ≤ cells_per_row false true 3 ∧
    cells_per_row false true 3 ≤ max 1 3 ∧
    (∀ m, m % 2 = 1 → m ≤ 3 → m ≤ cells_per_row false true 3) ∧
    cells_per_row false false 3 = max 1 3 ∧
    cells_per_row true true 3 = cells_per_row true false 3 ∧
    1 ≤ cells_per_row true true 3 ∧
    cells_per_row true true 3 = 2 :=
  cells_per_row_c5 true true 3

/-! ### Claim C10 -/

/-- Claim C10: resolving the empty-string text content raises. The wrapped
text of `""` is `""` (any line wrapper maps the empty line to itself),
`"".splitlines()` is the empty list, and `max([], key=ansilen)` raises
`ValueError` — so `Grid.show` on a sequence containing `""` aborts (the
`ValueError` propagates out of `_get_content` into `show`, which has no
handler) instead of rendering a blank cell: text content must contain at
least one line. -/
theorem empty_text_c10 (re pe : Bool) (wrapFn : String → String)
    (maxLines : Nat) (hw : wrapFn "" = "") :
    get_content re pe wrapFn maxLines (.text "") = .error .valueError := by
  have ht : get_text wrapFn maxLines "" = "" := by
    have h0 : (splitOnNl "".data).map wrapFn = [wrapFn ""] := rfl
    unfold get_text
    rw [h0, hw]
    cases maxLines with
    | zero => rfl
    | succ k =>
      show "\n".intercalate ("" :: List.take k []) = ""
      rw [List.take_nil]
      rfl
  have he : get_content re pe wrapFn maxLines (.text "") =
      (match pySplitlines (get_text wrapFn maxLines "") with
       | [] => .error .valueError
       | ls => .ok (.text (get_text wrapFn maxLines ""),
           natListMax (ls.map String.length), ls.length)) := rfl
  rw [he, ht]
  rfl

/-- Claim C10, witness: with the identity wrapper and a 5-line row, the
empty text cell makes content resolution raise `ValueError`. -/
theorem empty_text_c10_witness :
    (fun s => s) "" = "" ∧
    get_content false true (fun s => s) 5 (.text "") = .error .valueError :=
  ⟨rfl, empty_text_c10 false true (fun s => s) 5 rfl⟩

/-! ### Claim C3 -/

/-- Claim C3 is contradicted by the code: with `raise_errors = false`,
`_get_resized_image` swallows the resize failure and returns `None`
(first two conjuncts, with and without `print_errors`), and
`_get_content` then evaluates `img.width` on that `None`, raising
`AttributeError` — so the grid render aborts instead of treating the cell
as empty 0×0 content (third and fourth conjuncts). With
`raise_errors = true` the original resize error propagates as the spec
says (last conjunct). -/
theorem grid_resize_failure_c3 :
    get_resized_image false true (.error ()) = .ok none ∧
    get_resized_image false false (.error ()) = .ok none ∧
    get_content false true (fun s => s) 5 (.image (.error ())) =
      .error .attributeError ∧
    get_content false false (fun s => s) 5 (.image (.error ())) =
      .error .attributeError ∧
    get_resized_image true true (.error ()) = .error .resizeError :=
  ⟨rfl, rfl, rfl, rfl, rfl⟩

/-! ### Claims C6 and C7 -/

theorem dictGet_dictSet_self (d : List (String × CtrlVal)) (k : String)
    (v : CtrlVal) : dictGet (dictSet d k v) k = some v := by
  induction d with
  | nil => simp [dictGet, dictSet]
  | cons e rest ih =>
    by_cases he : e.1 = k
    · simp [dictSet, he, dictGet]
    · simp [dictSet, he, dictGet, ih]

theorem dictGet_dictSet_ne (d : List (String × CtrlVal)) (k k' : String)
    (v : CtrlVal) (hne : k ≠ k') :
    dictGet (dictSet d k v) k' = dictGet d k' := by
  induction d with
  | nil => simp [dictGet, dictSet, hne]
  | cons e rest ih =>
    by_cases he : e.1 = k
    · simp [dictSet, he, dictGet, hne]
    · simp only [dictSet, he, if_false, dictGet]
      by_cases he' : e.1 = k'
      · simp [he']
      · simp [he', ih]

/-- Claim C6: `get_code` increments `offset_x` by exactly 1 before
encoding (an absent `offset_x` is read as 0, hence encodes as 1), leaves
`offset_y` untouched, base64-encodes a non-empty payload, and produces
exactly `esc ++ "_G" ++ <comma-joined key=value pairs> ++ ";" ++
<payload> ++ esc ++ "\\"`. -/
theorem get_code_c6 (esc : String) (min_id max_id : Int)
    (ic : String → ControlEntry) (payload : String)
    (controls : List (String × CtrlVal)) (n : Int)
    (hid : idOk min_id max_id controls = true)
    (hx : offsetXVal controls = some n) :
    get_code esc min_id max_id ic payload controls =
      some (esc ++ "_G" ++
        keysString ic (dictSet controls "offset_x" (.int (n + 1))) ++ ";" ++
        (if payload = "" then "" else b64encode (utf8Bytes payload)) ++
        esc ++ "\\") ∧
    dictGet (dictSet controls "offset_x" (.int (n + 1))) "offset_x" =
      some (.int (n + 1)) ∧
    dictGet (dictSet controls "offset_x" (.int (n + 1))) "offset_y" =
      dictGet controls "offset_y" ∧
    (dictGet controls "offset_x" = none → n = 0) := by
  refine ⟨?_, dictGet_dictSet_self _ _ _,
    dictGet_dictSet_ne _ _ _ _ (by decide), ?_⟩
  · unfold get_code
    rw [hid, hx]
    rfl
  · intro hnone
    unfold offsetXVal at hx
    rw [hnone] at hx
    have : (0 : Int) = n := by injection hx
    omega

theorem readUntilBackslash_ne_nil (s : List Char) (cs : List Char)
    (h : readUntilBackslash s = some cs) : cs ≠ [] := by
  induction s generalizing cs with
  | nil => cases h
  | cons c rest ih =>
    unfold readUntilBackslash at h
    by_cases hc : c = '\\'
    · rw [if_pos hc] at h
      have : [c] = cs := by injection h
      subst this
      simp
    · rw [if_neg hc] at h
      cases hr : readUntilBackslash rest with
      | none => rw [hr] at h; cases h
      | some cs' =>
        rw [hr] at h
        have : c :: cs' = cs := by injection h
        subst this
        simp

/-- Claim C7: when the action elicits a reply and the read loop terminates
on the terminator, `run_code` raises `KittyAnswerError` carrying the
original outbound message and the raw reply exactly when the reply lacks
the `";OK"` success marker, returns normally when the marker is present,
and in both completion cases the `signal.alarm` deadline timer has been
cancelled (`alarm(0)` runs before the marker check). -/
theorem run_code_c7 (esc : String) (min_id max_id : Int)
    (ic : String → ControlEntry) (actions : List String)
    (payload : String) (controls : List (String × CtrlVal))
    (stdin : List Char) (code : String) (chars : List Char)
    (hcode : get_code esc min_id max_id ic payload controls = some code)
    (hact : wantsAnswer actions controls = true)
    (hread : readUntilBackslash stdin = some chars) :
    (hasSubstr ";OK".data chars = false →
      run_code esc min_id max_id ic actions payload controls stdin =
        ⟨.answerError code (String.mk chars), false⟩) ∧
    (hasSubstr ";OK".data chars = true →
      run_code esc min_id max_id ic actions payload controls stdin =
        ⟨.ok (String.mk chars), false⟩) := by
  have hne : chars ≠ [] := readUntilBackslash_ne_nil stdin chars hread
  have hsne : String.mk chars ≠ "" := by
    intro hs
    apply hne
    have hd := congrArg String.data hs
    simpa using hd
  constructor
  · intro hno
    have hcond : String.mk chars ≠ "" ∧ hasSubstr ";OK".data chars = false :=
      ⟨hsne, hno⟩
    simp [run_code, hcode, hact, hread, hcond]
  · intro hyes
    simp [run_code, hcode, hact, hread, hyes]

/-- Claim C6, witness: the spec's scenario — `action=transmit+display`,
`id=5`, `offset_x=0` with payload `"abc"` — encodes `offset_x` as 1 inside
the fixed frame with a base64 payload segment. -/
theorem get_code_c6_witness :
    idOk 1 4294967295 [("action", CtrlVal.str "transmit+display"),
      ("id", CtrlVal.int 5), ("offset_x", CtrlVal.int 0)] = true ∧
    offsetXVal [("action", CtrlVal.str "transmit+display"),
      ("id", CtrlVal.int 5), ("offset_x", CtrlVal.int 0)] = some 0 ∧
    (get_code "\x1b" 1 4294967295 (fun k => ⟨k, none⟩) "abc"
        [("action", CtrlVal.str "transmit+display"), ("id", CtrlVal.int 5),
          ("offset_x", CtrlVal.int 0)] =
      some ("\x1b" ++ "_G" ++
        keysString (fun k => ⟨k, none⟩)
          (dictSet [("action", CtrlVal.str "transmit+display"),
            ("id", CtrlVal.int 5), ("offset_x", CtrlVal.int 0)]
            "offset_x" (.int (0 + 1))) ++ ";" ++
        (if "abc" = "" then "" else b64encode (utf8Bytes "abc")) ++
        "\x1b" ++ "\\") ∧
    dictGet (dictSet [("action", CtrlVal.str "transmit+display"),
        ("id", CtrlVal.int 5), ("offset_x", CtrlVal.int 0)]
        "offset_x" (.int (0 + 1))) "offset_x" = some (.int (0 + 1)) ∧
    dictGet (dictSet [("action", CtrlVal.str "transmit+display"),
        ("id", CtrlVal.int 5), ("offset_x", CtrlVal.int 0)]
        "offset_x" (.int (0 + 1))) "offset_y" =
      dictGet [("action", CtrlVal.str "transmit+display"),
        ("id", CtrlVal.int 5), ("offset_x", CtrlVal.int 0)] "offset_y" ∧
    (dictGet [("action", CtrlVal.str "transmit+display"),
        ("id", CtrlVal.int 5), ("offset_x", CtrlVal.int 0)] "offset_x" =
      none → (0 : Int) = 0)) :=
  ⟨by decide, by decide,
    get_code_c6 "\x1b" 1 4294967295 (fun k => ⟨k, none⟩) "abc"
      [("action", CtrlVal.str "transmit+display"), ("id", CtrlVal.int 5),
        ("offset_x", CtrlVal.int 0)] 0 (by decide) (by decide)⟩

/-- Claim C7, witness: a `query` action whose reply `"x;EBADF\\"` lacks
the success marker produces `KittyAnswerError` with the outbound code and
the raw reply, with the alarm cancelled. -/
theorem run_code_c7_witness :
    get_code "E" 1 100 (fun k => ⟨k, none⟩) ""
      [("action", CtrlVal.str "query"), ("id", CtrlVal.int 1)] =
      some "E_Gaction=query,id=1,offset_x=1;E\\" ∧
    wantsAnswer ["query"]
      [("action", CtrlVal.str "query"), ("id", CtrlVal.int 1)] = true ∧
    readUntilBackslash "x;EBADF\\rest".data = some "x;EBADF\\".data ∧
    ((hasSubstr ";OK".data "x;EBADF\\".data = false →
      run_code "E" 1 100 (fun k => ⟨k, none⟩) ["query"] ""
        [("action", CtrlVal.str "query"), ("id", CtrlVal.int 1)]
        "x;EBADF\\rest".data =
        ⟨.answerError "E_Gaction=query,id=1,offset_x=1;E\\"
          (String.mk "x;EBADF\\".data), false⟩) ∧
    (hasSubstr ";OK".data "x;EBADF\\".data = true →
      run_code "E" 1 100 (fun k => ⟨k, none⟩) ["query"] ""
        [("action", CtrlVal.str "query"), ("id", CtrlVal.int 1)]
        "x;EBADF\\rest".data =
        ⟨.ok (String.mk "x;EBADF\\".data), false⟩)) :=
  ⟨by decide, by decide, by decide,
    run_code_c7 "E" 1 100 (fun k => ⟨k, none⟩) ["query"] ""
      [("action", CtrlVal.str "query"), ("id", CtrlVal.int 1)]
      "x;EBADF\\rest".data "E_Gaction=query,id=1,offset_x=1;E\\"
      "x;EBADF\\".data (by decide) (by decide) (by decide)⟩

end Pixcat
